import Mathlib

/-!
Verification of the msoauth client-side OAuth/PKCE session manager.

This file gives a shallow embedding, in Lean, of the token-lifecycle logic of
the repository: the session record and its schema migration
(`AuthManager.helpers`), the multi-scope-set refresh cycle, `getAccessToken`,
`getIdToken`, `handleRedirect`, `localLogout` and `isAuthenticated` of
`AuthManager`, the provider-selection proxy (`ProxyAuthManager`), and the
discovery-document cache (`OpenIDConfigurationManager`).  JavaScript objects
used as string-keyed maps are embedded as insertion-ordered association
lists; `localStorage` slots are `Option String`-style fields; network calls
are embedded by threading an explicit list of oracle responses (one entry per
request actually issued, `none` standing for a non-ok response); `async`
interleaving for the single-flight claims is embedded as a small-step system
over explicit schedules, with one step per atomic segment between `await`
suspension points.
-/

set_option autoImplicit false

namespace MsOAuth

/-- Entry of the `accessTokens` map: `{ token, expiresAt }`. -/
structure AccessTokenEntry where
  token : String
  expiresAt : Int
deriving DecidableEq, Repr

/-- The version-3 session record (`TokenInfo` in `AuthManager.helpers`), the
current schema: refresh token, identity token with its expiry, and the
per-scope-set access-token map. The constant `version: 3` tag is implicit. -/
structure TokenInfo where
  refreshToken : String
  idToken : String
  idTokenExpiresAt : Int
  accessTokens : List (String × AccessTokenEntry)
deriving DecidableEq, Repr

/-- The legacy version-1 session record (`TokenInfoV1`). -/
structure TokenInfoV1 where
  apiAccessToken : String
  msAccessToken : String
  refreshToken : String
  apiExpiresAt : Int
  msExpiresAt : Int
  idToken : String
deriving DecidableEq, Repr

/-- The version-2 session record (`TokenInfo` in `part_004`): like version 3
but without `idTokenExpiresAt`. -/
structure TokenInfoV2 where
  refreshToken : String
  idToken : String
  accessTokens : List (String × AccessTokenEntry)
deriving DecidableEq, Repr

/-- A raw persisted record, before migration: any historical schema version. -/
inductive RawTokenRecord where
  | v1 (t : TokenInfoV1)
  | v2 (t : TokenInfoV2)
deriving DecidableEq, Repr

/-- Response JSON of the token endpoint (`TokenResponse`); absent optional
fields (`refresh_token`, `id_token`) are embedded as the empty string, which
is exactly how the source's truthiness checks treat them. -/
structure TokenResponse where
  access_token : String
  refresh_token : String
  expires_in : Int
  id_token : String
deriving DecidableEq, Repr

/-- Decoded identity-token claims (`UserInfo`); only the fields the embedded
logic inspects are kept. -/
structure UserInfo where
  oid : String
  roles : List String
deriving DecidableEq, Repr

/-- Auth events emitted by the manager. -/
inductive AuthEvent where
  | login
  | logout
  | tokensChanged
deriving DecidableEq, Repr

/-- Errors thrown by the embedded operations, one constructor per distinct
`throw new Error(...)` site of the source. -/
inductive AuthError where
  | notAuthenticated
  | unknownScopeSet (name : String)
  | missingToken (name : String)
  | missingIdToken
  | noRefreshToken
  | refreshFailed (name : String)
  | userInfoFailed
  | missingCode
  | missingVerifier
  | stateMismatch
  | exchangeFailed
  | noActiveProvider
deriving DecidableEq, Repr

deriving instance DecidableEq for Except

/-- JavaScript-object lookup on a string-keyed association list. -/
def lookupKey {κ : Type} {V : Type} [DecidableEq κ] : List (κ × V) → κ → Option V
  | [], _ => none
  | (k', v) :: rest, k => if k' = k then some v else lookupKey rest k

/-- JavaScript-object assignment `obj[k] = v` on an association list:
replaces the value in place if the key exists, otherwise appends. -/
def setKey {κ : Type} {V : Type} [DecidableEq κ] : List (κ × V) → κ → V → List (κ × V)
  | [], k, v => [(k, v)]
  | (k', v') :: rest, k, v =>
      if k' = k then (k, v) :: rest else (k', v') :: setKey rest k v

/-- In-memory and `localStorage` state owned by one `AuthManager` instance.
`storedToken`, `storedVerifier`, `storedState`, `storedOriginalUrl` are the
manager's four `localStorage` slots; `configCached` records whether the
discovery cache currently holds a configuration. -/
structure MgrState where
  tokenInfo : Option TokenInfo
  userInfo : Option UserInfo
  storedToken : Option TokenInfo
  storedVerifier : Option String
  storedState : Option String
  storedOriginalUrl : Option String
  configCached : Bool
deriving DecidableEq, Repr

/-- A `grant_type=refresh_token` request as sent to the token endpoint. -/
structure RefreshRequest where
  grant_type : String
  client_id : String
  refresh_token : String
  scope : String
deriving DecidableEq, Repr

/-- `isAuthenticated`: true iff a session record with a non-empty refresh
token is present.  Access-token expiry is not consulted. -/
def isAuthenticated (st : MgrState) : Bool :=
  match st.tokenInfo with
  | none => false
  | some ti => ti.refreshToken ≠ ""

/-- The 5-minute expiration buffer, in milliseconds. -/
def expirationBuffer : Int := 5 * 60 * 1000

/-- `isTokenExpired`: true iff the record is absent, or some configured
scope-set has no access-token entry, or some entry is within the expiration
buffer of its expiry. -/
def isTokenExpired (scopeSets : List (String × String)) (tokenInfo : Option TokenInfo)
    (now : Int) : Bool :=
  match tokenInfo with
  | none => true
  | some ti =>
      scopeSets.any fun p =>
        match lookupKey ti.accessTokens p.1 with
        | none => true
        | some e => e.expiresAt - now < expirationBuffer

/-- `isIdTokenExpired`: true iff the record is absent, its `idTokenExpiresAt`
is falsy (zero), or the identity token is within the buffer of expiry. -/
def isIdTokenExpired (tokenInfo : Option TokenInfo) (now : Int) : Bool :=
  match tokenInfo with
  | none => true
  | some ti => ti.idTokenExpiresAt = 0 ∨ ti.idTokenExpiresAt - now < expirationBuffer

/-- `localLogout`: a no-op when both the session record and the claims are
already cleared; otherwise clears the record, the claims, the discovery
cache and the token/verifier/state storage slots, then emits `logout` and
`tokensChanged`. -/
def localLogout (st : MgrState) : MgrState × List AuthEvent :=
  if st.tokenInfo = none ∧ st.userInfo = none then (st, [])
  else
    ({ st with tokenInfo := none, userInfo := none, configCached := false,
               storedToken := none, storedVerifier := none, storedState := none },
     [AuthEvent.logout, AuthEvent.tokensChanged])

/-- The skip test `!scopes || scopes.trim() === ""` of the refresh loop: the
scope string contains nothing but whitespace (the empty string included). -/
def isBlankScopes (s : String) : Bool :=
  s.data.all Char.isWhitespace

/-- One iteration's updates to the working copy of the record: store the
response's access token (with its computed expiry) under the scope-set name,
and take over the response's identity token and its expiry when one is
present. -/
def refreshAccum (extractExp : String → Int) (now : Int) (name : String)
    (data : TokenResponse) (acc : TokenInfo) : TokenInfo :=
  let acc2 := { acc with
    accessTokens := setKey acc.accessTokens name
      ⟨data.access_token, now + data.expires_in * 1000⟩ }
  if data.id_token ≠ "" then
    { acc2 with idToken := data.id_token, idTokenExpiresAt := extractExp data.id_token }
  else acc2

/-- The per-scope-set loop of `refreshTokensInternal`: walks the configured
scope sets in order, skipping empty-scope sets, sending a refresh-token grant
request per remaining set (consuming one oracle response per request), and
accumulating the new access tokens, the rotated refresh token and the latest
identity token into a working copy.  Returns the requests actually sent and
either the finished record (with the final rotated refresh token written
back) or the name of the scope set whose request failed. -/
def runRefreshCycle (extractExp : String → Int) (clientId : String) (now : Int) :
    List (String × String) → List (Option TokenResponse) → String → TokenInfo →
    List RefreshRequest × Except String TokenInfo
  | [], _, rt, acc => ([], Except.ok { acc with refreshToken := rt })
  | (name, scopes) :: rest, responses, rt, acc =>
      if isBlankScopes scopes then runRefreshCycle extractExp clientId now rest responses rt acc
      else
        let req : RefreshRequest :=
          { grant_type := "refresh_token", client_id := clientId,
            refresh_token := rt, scope := scopes }
        match responses with
        | [] => ([req], Except.error name)
        | none :: _ => ([req], Except.error name)
        | some data :: rtail =>
            let rt2 := if data.refresh_token ≠ "" then data.refresh_token else rt
            let r := runRefreshCycle extractExp clientId now rest rtail rt2
              (refreshAccum extractExp now name data acc)
            (req :: r.1, r.2)

/-- Result of one embedded `AuthManager` operation: the post-state, the token
endpoint requests issued, the events emitted, and the returned value or
thrown error. -/
structure CallResult (α : Type) where
  state : MgrState
  requests : List RefreshRequest
  events : List AuthEvent
  result : Except AuthError α
deriving Repr, DecidableEq

/-- `refreshTokensInternal`: resolves the working refresh token from the
argument or the session record; on a falsy value performs `localLogout` and
throws; otherwise (initializing the in-memory record first when it was null)
runs the refresh cycle over all scope sets on a copy, and only on full
success recomputes the user claims, commits the copy to the in-memory record
and to storage, and emits `tokensChanged`. -/
def refreshTokensInternal (extractExp : String → Int)
    (extractUser : String → Except Unit UserInfo)
    (clientId : String) (scopeSets : List (String × String)) (now : Int)
    (st : MgrState) (refreshTokenArg : Option String)
    (responses : List (Option TokenResponse)) : CallResult Unit :=
  let currentRT : String :=
    match refreshTokenArg with
    | some s => s
    | none =>
        match st.tokenInfo with
        | some ti => ti.refreshToken
        | none => ""
  if currentRT = "" then
    let r := localLogout st
    { state := r.1, requests := [], events := r.2,
      result := Except.error AuthError.noRefreshToken }
  else
    let ti0 : TokenInfo :=
      match st.tokenInfo with
      | some ti => ti
      | none =>
          { refreshToken := currentRT, idToken := "", idTokenExpiresAt := 0,
            accessTokens := [] }
    let st1 := { st with tokenInfo := some ti0 }
    let r := runRefreshCycle extractExp clientId now scopeSets responses currentRT ti0
    match r.2 with
    | Except.error nm =>
        { state := st1, requests := r.1, events := [],
          result := Except.error (AuthError.refreshFailed nm) }
    | Except.ok newTi =>
        if newTi.idToken ≠ "" then
          match extractUser newTi.idToken with
          | Except.error _ =>
              { state := st1, requests := r.1, events := [],
                result := Except.error AuthError.userInfoFailed }
          | Except.ok u =>
              { state := { st1 with
                  tokenInfo := some newTi, userInfo := some u,
                  storedToken := some newTi },
                requests := r.1, events := [AuthEvent.tokensChanged],
                result := Except.ok () }
        else
          { state := { st1 with tokenInfo := some newTi, storedToken := some newTi },
            requests := r.1, events := [AuthEvent.tokensChanged],
            result := Except.ok () }

/-- The truthy token lookup `this.tokenInfo.accessTokens[name]?.token`:
`none` when the record, the entry, or the token string is falsy. -/
def tokenAt (tokenInfo : Option TokenInfo) (name : String) : Option String :=
  match tokenInfo with
  | none => none
  | some ti =>
      match lookupKey ti.accessTokens name with
      | none => none
      | some e => if e.token = "" then none else some e.token

/-- `getAccessToken(scopeSetName)` in its sequential form (no refresh already
in flight): fails when the record is absent, then when the scope-set name is
unconfigured; refreshes all scope sets when any configured set's token is
missing or within the buffer of expiry; then returns the requested set's
token or fails when it is still absent. -/
def getAccessToken (extractExp : String → Int)
    (extractUser : String → Except Unit UserInfo)
    (clientId : String) (scopeSets : List (String × String)) (now : Int)
    (name : String) (st : MgrState)
    (responses : List (Option TokenResponse)) : CallResult String :=
  match st.tokenInfo with
  | none =>
      { state := st, requests := [], events := [],
        result := Except.error AuthError.notAuthenticated }
  | some _ =>
      if (lookupKey scopeSets name).isNone then
        { state := st, requests := [], events := [],
          result := Except.error (AuthError.unknownScopeSet name) }
      else if isTokenExpired scopeSets st.tokenInfo now then
        let r := refreshTokensInternal extractExp extractUser clientId scopeSets now
          st none responses
        match r.result with
        | Except.error e =>
            { state := r.state, requests := r.requests, events := r.events,
              result := Except.error e }
        | Except.ok _ =>
            { state := r.state, requests := r.requests, events := r.events,
              result :=
                match tokenAt r.state.tokenInfo name with
                | none => Except.error (AuthError.missingToken name)
                | some tok => Except.ok tok }
      else
        { state := st, requests := [], events := [],
          result :=
            match tokenAt st.tokenInfo name with
            | none => Except.error (AuthError.missingToken name)
            | some tok => Except.ok tok }

/-- `getIdToken()` in its sequential form: fails when the record is absent;
refreshes when the identity token is within the buffer of expiry; then
returns the identity token or fails when it is empty. -/
def getIdToken (extractExp : String → Int)
    (extractUser : String → Except Unit UserInfo)
    (clientId : String) (scopeSets : List (String × String)) (now : Int)
    (st : MgrState) (responses : List (Option TokenResponse)) : CallResult String :=
  match st.tokenInfo with
  | none =>
      { state := st, requests := [], events := [],
        result := Except.error AuthError.notAuthenticated }
  | some _ =>
      if isIdTokenExpired st.tokenInfo now then
        let r := refreshTokensInternal extractExp extractUser clientId scopeSets now
          st none responses
        match r.result with
        | Except.error e =>
            { state := r.state, requests := r.requests, events := r.events,
              result := Except.error e }
        | Except.ok _ =>
            { state := r.state, requests := r.requests, events := r.events,
              result :=
                match r.state.tokenInfo with
                | none => Except.error AuthError.missingIdToken
                | some ti =>
                    if ti.idToken = "" then Except.error AuthError.missingIdToken
                    else Except.ok ti.idToken }
      else
        { state := st, requests := [], events := [],
          result :=
            match st.tokenInfo with
            | none => Except.error AuthError.missingIdToken
            | some ti =>
                if ti.idToken = "" then Except.error AuthError.missingIdToken
                else Except.ok ti.idToken }

/-- `handleRedirect()`: checks the `code` query parameter, the stored PKCE
verifier and the anti-forgery state (in that order, throwing before any
cleanup on each failure); removes the state and verifier slots only after
the state check passes; exchanges the code; on a single configured scope set
stores the returned tokens directly under `default`, otherwise runs a full
refresh with the returned refresh token; then emits `login` and consumes the
stored original URL. -/
def handleRedirect (extractExp : String → Int)
    (extractUser : String → Except Unit UserInfo)
    (clientId : String) (scopeSets : List (String × String)) (now : Int)
    (queryCode queryState : Option String) (st : MgrState)
    (exchangeResponse : Option TokenResponse)
    (responses : List (Option TokenResponse)) : CallResult Unit :=
  if queryCode = none ∨ queryCode = some "" then
    { state := st, requests := [], events := [],
      result := Except.error AuthError.missingCode }
  else
    match st.storedVerifier with
    | none =>
        { state := st, requests := [], events := [],
          result := Except.error AuthError.missingVerifier }
    | some v =>
        if v = "" then
          { state := st, requests := [], events := [],
            result := Except.error AuthError.missingVerifier }
        else
          match st.storedState with
          | none =>
              { state := st, requests := [], events := [],
                result := Except.error AuthError.stateMismatch }
          | some s =>
              if s = "" ∨ queryState ≠ some s then
                { state := st, requests := [], events := [],
                  result := Except.error AuthError.stateMismatch }
              else
                let st2 := { st with storedState := none, storedVerifier := none }
                match exchangeResponse with
                | none =>
                    { state := st2, requests := [], events := [],
                      result := Except.error AuthError.exchangeFailed }
                | some data =>
                    if scopeSets.length = 1 then
                      let ti : TokenInfo :=
                        { refreshToken := data.refresh_token,
                          idToken := data.id_token,
                          idTokenExpiresAt :=
                            if data.id_token ≠ "" then extractExp data.id_token else 0,
                          accessTokens :=
                            [("default",
                              ⟨data.access_token, now + data.expires_in * 1000⟩)] }
                      let st3 := { st2 with tokenInfo := some ti }
                      if data.id_token ≠ "" then
                        match extractUser data.id_token with
                        | Except.error _ =>
                            { state := st3, requests := [], events := [],
                              result := Except.error AuthError.userInfoFailed }
                        | Except.ok u =>
                            { state := { st3 with
                                userInfo := some u,
                                storedToken := some ti, storedOriginalUrl := none },
                              requests := [],
                              events := [AuthEvent.tokensChanged, AuthEvent.login],
                              result := Except.ok () }
                      else
                        { state := { st3 with
                            storedToken := some ti,
                            storedOriginalUrl := none },
                          requests := [],
                          events := [AuthEvent.tokensChanged, AuthEvent.login],
                          result := Except.ok () }
                    else
                      let r := refreshTokensInternal extractExp extractUser clientId
                        scopeSets now st2 (some data.refresh_token) responses
                      match r.result with
                      | Except.error e =>
                          { state := r.state, requests := r.requests,
                            events := r.events, result := Except.error e }
                      | Except.ok _ =>
                          let st5 := { r.state with storedOriginalUrl := none }
                          { state := st5, requests := r.requests,
                            events := r.events ++ [AuthEvent.login],
                            result := Except.ok () }

/-- `convertTokenInfoToV2`: a version-1 record maps its flat API token under
scope-set name `default` and its Graph token under `ms`; later versions pass
through unchanged. -/
def convertTokenInfoToV2 : RawTokenRecord → TokenInfoV2
  | RawTokenRecord.v1 t =>
      { refreshToken := t.refreshToken,
        idToken := t.idToken,
        accessTokens :=
          [("default", ⟨t.apiAccessToken, t.apiExpiresAt⟩),
           ("ms", ⟨t.msAccessToken, t.msExpiresAt⟩)] }
  | RawTokenRecord.v2 t => t

/-- Modelled from the spec: `convertTokenInfoToV3` is imported by the session
manager but its body is not among the provided sources.  Per the spec's
`migrateSessionRecord` contract, the upgrade chain first lifts a version-1
record through the version-2 converter, then back-fills the missing
identity-token expiry by decoding the embedded identity token when one is
present, else zero. -/
def convertTokenInfoToV3 (extractExp : String → Int) (raw : RawTokenRecord) : TokenInfo :=
  let v2 := convertTokenInfoToV2 raw
  { refreshToken := v2.refreshToken,
    idToken := v2.idToken,
    idTokenExpiresAt := if v2.idToken ≠ "" then extractExp v2.idToken else 0,
    accessTokens := v2.accessTokens }

/-- `can(policy)`: false without claims, otherwise the named policy applied
to the claims' roles, defaulting to false for an unregistered name. -/
def can (policies : List (String × (List String → Bool))) (st : MgrState)
    (policy : String) : Bool :=
  match st.userInfo with
  | none => false
  | some u =>
      match lookupKey policies policy with
      | none => false
      | some f => f u.roles

/-- State of a provider-selection proxy (`ProxyAuthManager`): the immutable
registration map plus the proxy's own (empty-configuration) manager state. -/
structure ProxySys where
  providers : List (String × MgrState)
  selfState : MgrState
deriving Repr

/-- Proxy `logout` override: always throws, touching no provider. -/
def proxyLogout (sys : ProxySys) : ProxySys × Except AuthError Unit :=
  (sys, Except.error AuthError.noActiveProvider)

/-- Proxy `getAccessToken` override: always throws, touching no provider. -/
def proxyGetAccessToken (sys : ProxySys) : ProxySys × Except AuthError String :=
  (sys, Except.error AuthError.noActiveProvider)

/-- Proxy `getMsAccessToken` override: always throws, touching no provider. -/
def proxyGetMsAccessToken (sys : ProxySys) : ProxySys × Except AuthError String :=
  (sys, Except.error AuthError.noActiveProvider)

/-- Proxy `isAuthenticated` override: always false. -/
def proxyIsAuthenticated (_sys : ProxySys) : Bool :=
  false

/-- Proxy `can` override: always false. -/
def proxyCan (_sys : ProxySys) (_policy : String) : Bool :=
  false

/-- The proxy's `getIdToken`: not overridden, so the base implementation
runs against the proxy's own state (empty configuration: empty client id,
only the `default` scope set with an empty scope string). -/
def proxyGetIdToken (extractExp : String → Int)
    (extractUser : String → Except Unit UserInfo) (now : Int)
    (sys : ProxySys) (responses : List (Option TokenResponse)) :
    ProxySys × Except AuthError String :=
  let r := getIdToken extractExp extractUser "" [("default", "")] now
    sys.selfState responses
  ({ sys with selfState := r.state }, r.result)

/-! ### Single-flight refresh: small-step concurrency model

Two callers run `getAccessToken` concurrently over the shared manager state.
Execution is cooperative and single-threaded: each scheduler step runs one
task's current atomic segment (the code between two `await` suspension
points).  A caller's first segment performs the session/scope-set checks and
the expiry check, and then either reads the token directly, joins the
promise already stored in `refreshPromise`, or starts a new refresh cycle
(incrementing the started-cycle counter, storing its promise and spawning a
worker).  A worker models one `refreshTokensInternal` run as `steps` silent
suspension steps followed by an atomic commit of its resulting record.  A
caller blocked on a promise resumes once that cycle has completed; the
caller that created the promise clears `refreshPromise` in its `finally`
when it resumes. -/

/-- The token read `this.tokenInfo.accessTokens[name]?.token` performed by a
caller once no refresh is needed (or after awaiting one). -/
def readToken (tokenInfo : Option TokenInfo) (name : String) : Except AuthError String :=
  match tokenAt tokenInfo name with
  | none => Except.error (AuthError.missingToken name)
  | some tok => Except.ok tok

/-- Program counter of one concurrent `getAccessToken` caller. -/
inductive CallerPC where
  | start
  | awaiting (cid : Nat) (owner : Bool)
  | done (r : Except AuthError String)
deriving DecidableEq, Repr

/-- Shared manager state visible to the concurrent callers: the in-memory
record, the `refreshPromise` slot (holding the id of the in-flight cycle),
the number of refresh cycles started so far, the live workers with their
remaining suspension steps, and the ids of completed cycles. -/
structure ConcSys where
  tokenInfo : Option TokenInfo
  refreshPromise : Option Nat
  started : Nat
  workers : List (Nat × Nat)
  completed : List Nat
deriving DecidableEq, Repr

/-- Fixed parameters of a concurrent scenario: the configured scope sets,
the clock, the number of suspension steps inside one refresh cycle, the
record committed by cycle `cid` on success, and the scope-set names the two
callers request. -/
structure ConcParams where
  scopeSets : List (String × String)
  now : Int
  steps : Nat
  commits : Nat → TokenInfo
  nameA : String
  nameB : String

/-- One atomic segment of a caller.  From `start`: the not-authenticated and
unknown-scope-set checks, then the expiry check; an expired record makes the
caller join the in-flight promise or create the next cycle, a fresh one lets
it read its token and finish.  From `awaiting`: enabled once the awaited
cycle is complete; the promise's creator then clears `refreshPromise` (its
`finally`), and the caller reads its token from the committed record. -/
def callerStep (P : ConcParams) (myName : String) (pc : CallerPC) (sys : ConcSys) :
    CallerPC × ConcSys :=
  match pc with
  | CallerPC.done r => (CallerPC.done r, sys)
  | CallerPC.start =>
      match sys.tokenInfo with
      | none => (CallerPC.done (Except.error AuthError.notAuthenticated), sys)
      | some _ =>
          if (lookupKey P.scopeSets myName).isNone then
            (CallerPC.done (Except.error (AuthError.unknownScopeSet myName)), sys)
          else if isTokenExpired P.scopeSets sys.tokenInfo P.now then
            match sys.refreshPromise with
            | some cid => (CallerPC.awaiting cid false, sys)
            | none =>
                let cid := sys.started
                (CallerPC.awaiting cid true,
                 { sys with refreshPromise := some cid, started := sys.started + 1,
                            workers := sys.workers ++ [(cid, P.steps)] })
          else
            (CallerPC.done (readToken sys.tokenInfo myName), sys)
  | CallerPC.awaiting cid owner =>
      if cid ∈ sys.completed then
        let sys' := if owner then { sys with refreshPromise := none } else sys
        (CallerPC.done (readToken sys'.tokenInfo myName), sys')
      else (CallerPC.awaiting cid owner, sys)

/-- One step of the worker running cycle `cid`: a silent suspension step
while steps remain, then the atomic commit of the cycle's record. -/
def workerStep (P : ConcParams) (cid : Nat) (sys : ConcSys) : ConcSys :=
  match lookupKey sys.workers cid with
  | none => sys
  | some rem =>
      if rem = 0 then
        { sys with tokenInfo := some (P.commits cid),
                   workers := sys.workers.filter (fun w => w.1 ≠ cid),
                   completed := cid :: sys.completed }
      else
        { sys with workers := setKey sys.workers cid (rem - 1) }

/-- A schedulable task: caller A, caller B, or the worker of cycle `cid`. -/
inductive Task where
  | ca
  | cb
  | w (cid : Nat)
deriving DecidableEq, Repr

/-- Whole-system configuration: shared state plus both callers. -/
structure Conc2 where
  sys : ConcSys
  a : CallerPC
  b : CallerPC
deriving DecidableEq, Repr

/-- Run the task the scheduler picked for one atomic segment. -/
def stepTask (P : ConcParams) (s : Conc2) : Task → Conc2
  | Task.ca =>
      let r := callerStep P P.nameA s.a s.sys
      { s with a := r.1, sys := r.2 }
  | Task.cb =>
      let r := callerStep P P.nameB s.b s.sys
      { s with b := r.1, sys := r.2 }
  | Task.w cid => { s with sys := workerStep P cid s.sys }

/-- Run a whole schedule. -/
def runSched (P : ConcParams) (s0 : Conc2) (sched : List Task) : Conc2 :=
  sched.foldl (stepTask P) s0

/-- Initial configuration: record `ti0` cached, no promise, no cycles, both
callers about to run `getAccessToken`. -/
def initConc (ti0 : TokenInfo) : Conc2 :=
  { sys := { tokenInfo := some ti0, refreshPromise := none, started := 0,
             workers := [], completed := [] },
    a := CallerPC.start, b := CallerPC.start }

/-! ### Discovery cache (`OpenIDConfigurationManager`) -/

/-- The discovery document's endpoint configuration. -/
structure OpenIDConfiguration where
  authorization_endpoint : String
  token_endpoint : String
  end_session_endpoint : String
  issuer : String
deriving DecidableEq, Repr

/-- State of one `OpenIDConfigurationManager`: the cached configuration, the
in-flight fetch flag (`configPromise`), and the count of fetches issued. -/
structure CfgSys where
  cachedConfig : Option OpenIDConfiguration
  configPromise : Bool
  fetchCount : Nat
deriving DecidableEq, Repr

/-- Outcome of `getConfiguration`'s first atomic segment. -/
inductive GetCfgOutcome where
  | cached (c : OpenIDConfiguration)
  | joined
  | started
deriving DecidableEq, Repr

/-- First atomic segment of `getConfiguration()`: return the cache when it is
populated; otherwise join the in-flight fetch when one exists; otherwise
start a new fetch (network request issued, promise stored). -/
def getConfigurationStart (s : CfgSys) : CfgSys × GetCfgOutcome :=
  match s.cachedConfig with
  | some c => (s, GetCfgOutcome.cached c)
  | none =>
      if s.configPromise then (s, GetCfgOutcome.joined)
      else ({ s with configPromise := true, fetchCount := s.fetchCount + 1 },
            GetCfgOutcome.started)

/-- `clearCache()`: clears only the cached configuration; the in-flight
promise (if any) is untouched. -/
def clearCache (s : CfgSys) : CfgSys :=
  { s with cachedConfig := none }

/-- Continuation of the fetch initiator once the network request resolves
with `cfg`: `this.cachedConfig = await this.configPromise` followed by the
`finally` clearing the promise slot. -/
def fetchResolve (cfg : OpenIDConfiguration) (s : CfgSys) : CfgSys :=
  { s with cachedConfig := some cfg, configPromise := false }

/-- `n` consecutive complete `getConfiguration()` calls, collecting each
call's first-segment outcome. -/
def getConfigurationRuns : Nat → CfgSys → CfgSys × List GetCfgOutcome
  | 0, s => (s, [])
  | n + 1, s =>
      let r := getConfigurationStart s
      let rest := getConfigurationRuns n r.1
      (rest.1, r.2 :: rest.2)

/-! ### Derived observables used by the claims -/

/-- The refresh token a response rotates in: the response's token when it is
non-empty, else the previously held value; a failed request leaves it
unchanged. -/
def rotateRT (rt : String) (r : Option TokenResponse) : String :=
  match r with
  | some d => if d.refresh_token ≠ "" then d.refresh_token else rt
  | none => rt

/-- The refresh token held after a sequence of responses. -/
def foldRotate (rt : String) (rs : List (Option TokenResponse)) : String :=
  rs.foldl rotateRT rt

/-- The last non-empty `refresh_token` among a sequence of responses. -/
def lastNonEmptyRT : List (Option TokenResponse) → Option String
  | [] => none
  | r :: rest =>
      match lastNonEmptyRT rest with
      | some s => some s
      | none =>
          match r with
          | some d => if d.refresh_token ≠ "" then some d.refresh_token else none
          | none => none

/-- Count occurrences of one event in an emitted event list. -/
def countEvent (evs : List AuthEvent) (e : AuthEvent) : Nat :=
  evs.countP (fun x => x = e)

/-- A manager state with nothing stored and nothing cached. -/
def blankState : MgrState :=
  { tokenInfo := none, userInfo := none, storedToken := none,
    storedVerifier := none, storedState := none, storedOriginalUrl := none,
    configCached := true }

/-- Invariant piece for one concurrent caller: it is still at its first
segment, blocked on cycle 0, or finished having read its token from the
record cycle 0 committed. -/
def CallerOk (P : ConcParams) (sys : ConcSys) (pc : CallerPC) (nm : String) : Prop :=
  pc = CallerPC.start ∨ (∃ ow, pc = CallerPC.awaiting 0 ow) ∨
    (pc = CallerPC.done (readToken (some (P.commits 0)) nm) ∧ sys.completed = [0])

/-- Inductive invariant of the two-caller scenario: either no cycle has
started yet (everything still initial), or exactly cycle 0 has started and it
is either in flight (promise held, record still stale) or committed. -/
def ConcInv (P : ConcParams) (ti0 : TokenInfo) (s : Conc2) : Prop :=
  (s.sys.started = 0 ∧ s.sys = (initConc ti0).sys ∧
    s.a = CallerPC.start ∧ s.b = CallerPC.start)
  ∨ (s.sys.started = 1 ∧ CallerOk P s.sys s.a P.nameA ∧ CallerOk P s.sys s.b P.nameB ∧
      (((∃ k, s.sys.workers = [(0, k)]) ∧ s.sys.completed = [] ∧
          s.sys.tokenInfo = some ti0 ∧ s.sys.refreshPromise = some 0)
        ∨ (s.sys.workers = [] ∧ s.sys.completed = [0] ∧
            s.sys.tokenInfo = some (P.commits 0))))

/-- Concrete record for the cached-token scenario: empty refresh token, one
fresh non-empty access token under `default`. -/
def cachedOnlyRecord : TokenInfo :=
  { refreshToken := "", idToken := "", idTokenExpiresAt := 0,
    accessTokens := [("default", ⟨"TOK", 10 * expirationBuffer⟩)] }

/-- Manager state holding only `cachedOnlyRecord`. -/
def cachedOnlyState : MgrState :=
  { blankState with tokenInfo := some cachedOnlyRecord }

/-- Concrete stale state: record with refresh token `R0` and no access
tokens, so every configured scope set is missing its token. -/
def staleState : MgrState :=
  { blankState with tokenInfo := some ⟨"R0", "", 0, []⟩ }

/-- The record committed by refreshing `staleState` against one scope set
with response `access_token A`, `refresh_token R1`, `expires_in 60`. -/
def refreshedRecord : TokenInfo :=
  ⟨"R1", "", 0, [("default", ⟨"A", 60000⟩)]⟩

/-- The full result of that `getAccessToken` call. -/
def refreshedResult : CallResult String :=
  { state := { blankState with
      tokenInfo := some refreshedRecord,
      storedToken := some refreshedRecord },
    requests := [⟨"refresh_token", "cid", "R0", "a"⟩],
    events := [AuthEvent.tokensChanged],
    result := Except.ok "A" }

/-- Concrete parameters of the two-caller single-flight scenario: one scope
set, a stale starting record, one suspension step per cycle, and a committed
record whose token `A` is fresh. -/
def singleFlightParams : ConcParams :=
  { scopeSets := [("default", "a")], now := 0, steps := 1,
    commits := fun _ => ⟨"R1", "", 0, [("default", ⟨"A", 600000⟩)]⟩,
    nameA := "default", nameB := "default" }

/-- The stale record both callers start from. -/
def singleFlightInitRecord : TokenInfo := ⟨"R0", "", 0, []⟩

/-- One complete interleaving of the scenario: both callers issue their
first segment, the worker runs to commit, then both callers resume. -/
def singleFlightSched : List Task :=
  [Task.ca, Task.cb, Task.w 0, Task.w 0, Task.ca, Task.cb]

/-! ## Theorems -/

/-- A successful association-list lookup exhibits a member of the list. -/
theorem lookupKey_mem {κ V : Type} [DecidableEq κ] :
    ∀ (l : List (κ × V)) (k : κ) (v : V), lookupKey l k = some v → (k, v) ∈ l := by
  intro l
  induction l with
  | nil => intro k v h; simp [lookupKey] at h
  | cons p rest ih =>
      intro k v h
      obtain ⟨k', v'⟩ := p
      by_cases hk : k' = k
      · subst hk
        simp [lookupKey] at h
        subst h
        exact List.mem_cons_self _ _
      · simp [lookupKey, hk] at h
        exact List.mem_cons_of_mem _ (ih k v h)

/-- C6 counterexample: from an already-logged-out state, two consecutive
`localLogout` calls emit no events at all, so the total is not one `logout`
and one `tokensChanged`. -/
theorem localLogout_twice_blank_counterexample :
    countEvent ((localLogout blankState).2 ++ (localLogout (localLogout blankState).1).2)
        AuthEvent.logout ≠ 1 ∧
      countEvent ((localLogout blankState).2 ++ (localLogout (localLogout blankState).1).2)
        AuthEvent.tokensChanged ≠ 1 := by
  decide

/-- C6 (amended): from any state still holding a session record or claims,
the first `localLogout` emits exactly `logout` then `tokensChanged`, and the
second is a no-op: no state change, no events, so the two calls together
emit exactly one event of each kind. -/
theorem localLogout_idempotent (st : MgrState)
    (h : st.tokenInfo ≠ none ∨ st.userInfo ≠ none) :
    (localLogout st).2 = [AuthEvent.logout, AuthEvent.tokensChanged] ∧
      localLogout (localLogout st).1 = ((localLogout st).1, []) ∧
      countEvent ((localLogout st).2 ++ (localLogout (localLogout st).1).2)
        AuthEvent.logout = 1 ∧
      countEvent ((localLogout st).2 ++ (localLogout (localLogout st).1).2)
        AuthEvent.tokensChanged = 1 := by
  have hcond : ¬(st.tokenInfo = none ∧ st.userInfo = none) := by
    rcases h with h | h <;> intro hc <;> [exact h hc.1; exact h hc.2]
  rw [localLogout, if_neg hcond]
  refine ⟨rfl, ?_, ?_, ?_⟩
  · rw [localLogout]; simp
  · rw [localLogout]; simp; decide
  · rw [localLogout]; simp; decide

/-- C6 witness: the amended idempotence theorem applied to a state with a
live session record. -/
theorem localLogout_idempotent_witness :
    (localLogout { blankState with userInfo := some { oid := "u", roles := [] } }).2 =
        [AuthEvent.logout, AuthEvent.tokensChanged] ∧
      localLogout (localLogout
          { blankState with userInfo := some { oid := "u", roles := [] } }).1 =
        ((localLogout { blankState with userInfo := some { oid := "u", roles := [] } }).1, []) ∧
      countEvent ((localLogout { blankState with userInfo := some { oid := "u", roles := [] } }).2 ++
          (localLogout (localLogout
            { blankState with userInfo := some { oid := "u", roles := [] } }).1).2)
        AuthEvent.logout = 1 ∧
      countEvent ((localLogout { blankState with userInfo := some { oid := "u", roles := [] } }).2 ++
          (localLogout (localLogout
            { blankState with userInfo := some { oid := "u", roles := [] } }).1).2)
        AuthEvent.tokensChanged = 1 :=
  localLogout_idempotent _ (Or.inr (by decide))

/-- C7: migrating a version-1 record places the API token under `default`
and the Graph token under `ms`, preserving the refresh token and the
identity token. -/
theorem migrate_v1_record (extractExp : String → Int)
    (X Y R J : String) (T1 T2 : Int) :
    (convertTokenInfoToV3 extractExp (RawTokenRecord.v1
        { apiAccessToken := X, msAccessToken := Y, refreshToken := R,
          apiExpiresAt := T1, msExpiresAt := T2, idToken := J })).refreshToken = R ∧
      (convertTokenInfoToV3 extractExp (RawTokenRecord.v1
        { apiAccessToken := X, msAccessToken := Y, refreshToken := R,
          apiExpiresAt := T1, msExpiresAt := T2, idToken := J })).idToken = J ∧
      (convertTokenInfoToV3 extractExp (RawTokenRecord.v1
        { apiAccessToken := X, msAccessToken := Y, refreshToken := R,
          apiExpiresAt := T1, msExpiresAt := T2, idToken := J })).accessTokens =
        [("default", ⟨X, T1⟩), ("ms", ⟨Y, T2⟩)] :=
  ⟨rfl, rfl, rfl⟩

/-- C8 counterexample: `getIdToken` is not overridden by the proxy, so on a
proxy with no stored record of its own it fails with the not-authenticated
error, not the no-active-provider error the claim states. -/
theorem proxy_getIdToken_counterexample :
    (proxyGetIdToken (fun _ => 0) (fun _ => Except.error ()) 0
        { providers := [("p1", blankState)], selfState := blankState } []).2 =
        Except.error AuthError.notAuthenticated ∧
      (proxyGetIdToken (fun _ => 0) (fun _ => Except.error ()) 0
        { providers := [("p1", blankState)], selfState := blankState } []).2 ≠
        Except.error AuthError.noActiveProvider := by
  exact ⟨rfl, by decide⟩

/-- C8 (amended): in every proxy state `isAuthenticated` and `can` return
false, and the overridden `logout`, `getAccessToken` and `getMsAccessToken`
fail with the no-active-provider error leaving the whole system — registered
providers included — untouched; the identity-token getter is the one entry
point not overridden (see the counterexample). -/
theorem proxy_selector_contract (sys : ProxySys) (policy : String) :
    proxyIsAuthenticated sys = false ∧ proxyCan sys policy = false ∧
      proxyLogout sys = (sys, Except.error AuthError.noActiveProvider) ∧
      proxyGetAccessToken sys = (sys, Except.error AuthError.noActiveProvider) ∧
      proxyGetMsAccessToken sys = (sys, Except.error AuthError.noActiveProvider) :=
  ⟨rfl, rfl, rfl, rfl, rfl⟩

/-- `localLogout` never introduces transient PKCE artifacts. -/
theorem localLogout_no_artifacts (st : MgrState)
    (hv : st.storedVerifier = none) (hs : st.storedState = none) :
    (localLogout st).1.storedVerifier = none ∧ (localLogout st).1.storedState = none := by
  rw [localLogout]
  split
  · exact ⟨hv, hs⟩
  · exact ⟨rfl, rfl⟩

/-- `refreshTokensInternal` never introduces transient PKCE artifacts. -/
theorem refreshTokensInternal_no_artifacts (extractExp : String → Int)
    (extractUser : String → Except Unit UserInfo) (clientId : String)
    (scopeSets : List (String × String)) (now : Int) (st : MgrState)
    (arg : Option String) (responses : List (Option TokenResponse))
    (hv : st.storedVerifier = none) (hs : st.storedState = none) :
    (refreshTokensInternal extractExp extractUser clientId scopeSets now
        st arg responses).state.storedVerifier = none ∧
      (refreshTokensInternal extractExp extractUser clientId scopeSets now
        st arg responses).state.storedState = none := by
  rw [refreshTokensInternal.eq_def]
  dsimp only
  repeat' split
  all_goals first
    | exact localLogout_no_artifacts st hv hs
    | exact ⟨hv, hs⟩

/-- The error of a failed `refreshTokensInternal` is one of the refresh
errors: no refresh token, a named scope-set failure, or a claims-decoding
failure. -/
theorem refreshTokensInternal_error_shape (extractExp : String → Int)
    (extractUser : String → Except Unit UserInfo) (clientId : String)
    (scopeSets : List (String × String)) (now : Int) (st : MgrState)
    (arg : Option String) (responses : List (Option TokenResponse)) :
    (refreshTokensInternal extractExp extractUser clientId scopeSets now
        st arg responses).result = Except.ok () ∨
      (refreshTokensInternal extractExp extractUser clientId scopeSets now
        st arg responses).result = Except.error AuthError.noRefreshToken ∨
      (∃ nm, (refreshTokensInternal extractExp extractUser clientId scopeSets now
        st arg responses).result = Except.error (AuthError.refreshFailed nm)) ∨
      (refreshTokensInternal extractExp extractUser clientId scopeSets now
        st arg responses).result = Except.error AuthError.userInfoFailed := by
  rw [refreshTokensInternal.eq_def]
  dsimp only
  repeat' split
  all_goals first
    | exact Or.inl rfl
    | exact Or.inr (Or.inl rfl)
    | exact Or.inr (Or.inr (Or.inl ⟨_, rfl⟩))
    | exact Or.inr (Or.inr (Or.inr rfl))

/-- C5 counterexample: on a state-mismatch failure `handleRedirect` throws
before reaching either cleanup line, so the stored PKCE verifier and state
survive, contradicting the claim that every outcome path removes them. -/
theorem handleRedirect_state_mismatch_counterexample :
    (handleRedirect (fun _ => 0) (fun _ => Except.error ()) "cid" [("default", "a")] 0
        (some "c") (some "t")
        { blankState with storedVerifier := some "v", storedState := some "s" }
        none []).result = Except.error AuthError.stateMismatch ∧
      (handleRedirect (fun _ => 0) (fun _ => Except.error ()) "cid" [("default", "a")] 0
        (some "c") (some "t")
        { blankState with storedVerifier := some "v", storedState := some "s" }
        none []).state.storedVerifier = some "v" ∧
      (handleRedirect (fun _ => 0) (fun _ => Except.error ()) "cid" [("default", "a")] 0
        (some "c") (some "t")
        { blankState with storedVerifier := some "v", storedState := some "s" }
        none []).state.storedState = some "s" := by
  decide

/-- C5 (amended): `handleRedirect` removes the transient verifier and state
entries on the success path and on every failure arising after the state
check (failed code exchange, failed claims decode, failed multi-scope
refresh); on the missing-code, missing-verifier and state-mismatch failure
paths it throws before the cleanup lines and leaves the state — the stored
verifier and state included — exactly as it was. -/
theorem handleRedirect_cleanup (extractExp : String → Int)
    (extractUser : String → Except Unit UserInfo) (clientId : String)
    (scopeSets : List (String × String)) (now : Int)
    (queryCode queryState : Option String) (st : MgrState)
    (exchangeResponse : Option TokenResponse)
    (responses : List (Option TokenResponse)) (r : CallResult Unit)
    (h : handleRedirect extractExp extractUser clientId scopeSets now
        queryCode queryState st exchangeResponse responses = r) :
    (r.result ≠ Except.error AuthError.missingCode →
      r.result ≠ Except.error AuthError.missingVerifier →
      r.result ≠ Except.error AuthError.stateMismatch →
      r.state.storedVerifier = none ∧ r.state.storedState = none) ∧
    ((r.result = Except.error AuthError.missingCode ∨
        r.result = Except.error AuthError.missingVerifier ∨
        r.result = Except.error AuthError.stateMismatch) →
      r.state = st) := by
  subst h
  rw [handleRedirect.eq_def]
  split
  · exact ⟨fun hc _ _ => absurd rfl hc, fun _ => rfl⟩
  · split
    · exact ⟨fun _ hc _ => absurd rfl hc, fun _ => rfl⟩
    · split
      · exact ⟨fun _ hc _ => absurd rfl hc, fun _ => rfl⟩
      · split
        · exact ⟨fun _ _ hc => absurd rfl hc, fun _ => rfl⟩
        · split
          · exact ⟨fun _ _ hc => absurd rfl hc, fun _ => rfl⟩
          · split
            · refine ⟨fun _ _ _ => ⟨rfl, rfl⟩, ?_⟩
              rintro (hc | hc | hc) <;> simp at hc
            · split
              · split
                · split
                  · refine ⟨fun _ _ _ => ⟨rfl, rfl⟩, ?_⟩
                    rintro (hc | hc | hc) <;> simp at hc
                  · refine ⟨fun _ _ _ => ⟨rfl, rfl⟩, ?_⟩
                    rintro (hc | hc | hc) <;> simp at hc
                · refine ⟨fun _ _ _ => ⟨rfl, rfl⟩, ?_⟩
                  rintro (hc | hc | hc) <;> simp at hc
              · rename_i data hlen
                have hart := refreshTokensInternal_no_artifacts extractExp extractUser
                  clientId scopeSets now
                  { st with storedState := none, storedVerifier := none }
                  (some data.refresh_token) responses rfl rfl
                have hshape := refreshTokensInternal_error_shape extractExp extractUser
                  clientId scopeSets now
                  { st with storedState := none, storedVerifier := none }
                  (some data.refresh_token) responses
                dsimp only
                split
                · next e heq =>
                    refine ⟨fun _ _ _ => ⟨hart.1, hart.2⟩, ?_⟩
                    rcases hshape with hs | hs | ⟨nm, hs⟩ | hs <;>
                      rw [heq] at hs <;> simp at hs <;> subst hs <;>
                      rintro (hc | hc | hc) <;> simp at hc
                · refine ⟨fun _ _ _ => ⟨hart.1, hart.2⟩, ?_⟩
                  rintro (hc | hc | hc) <;> simp at hc

/-- C5 witness: the amended cleanup theorem applied to a run that fails at
the code exchange; the verifier and state slots end cleared. -/
theorem handleRedirect_cleanup_witness :
    (handleRedirect (fun _ => 0) (fun _ => Except.error ()) "cid" [("default", "a")] 0
        (some "c") (some "s")
        { blankState with storedVerifier := some "v", storedState := some "s" }
        none []).state.storedVerifier = none ∧
      (handleRedirect (fun _ => 0) (fun _ => Except.error ()) "cid" [("default", "a")] 0
        (some "c") (some "s")
        { blankState with storedVerifier := some "v", storedState := some "s" }
        none []).state.storedState = none :=
  (handleRedirect_cleanup (fun _ => 0) (fun _ => Except.error ()) "cid" [("default", "a")] 0
      (some "c") (some "s")
      { blankState with storedVerifier := some "v", storedState := some "s" }
      none [] _ rfl).1 (by decide) (by decide) (by decide)

/-- C1 counterexample: with no session record and a caller-supplied refresh
token (the `handleRedirect` multi-scope path), a cycle whose very first
request fails still leaves behind a freshly initialized in-memory record —
the record after the failed call differs from the one before it. -/
theorem refresh_failure_null_record_counterexample :
    (refreshTokensInternal (fun _ => 0) (fun _ => Except.error ()) "cid"
        [("default", "a"), ("ms", "b")] 0 blankState (some "R") [none]).result =
        Except.error (AuthError.refreshFailed "default") ∧
      blankState.tokenInfo = none ∧
      (refreshTokensInternal (fun _ => 0) (fun _ => Except.error ()) "cid"
        [("default", "a"), ("ms", "b")] 0 blankState (some "R") [none]).state.tokenInfo ≠
        none := by
  decide

/-- C1 (amended): whenever a session record already exists before the call,
a refresh cycle that fails on any scope-set's token-endpoint request leaves
the whole manager state — the in-memory record, the stored copy, and the
claims — exactly as it was; no field is partially updated.  (When no record
existed and the refresh token came from the caller, the failed call instead
leaves the freshly initialized record, per the counterexample.) -/
theorem refresh_failure_preserves_record (extractExp : String → Int)
    (extractUser : String → Except Unit UserInfo) (clientId : String)
    (scopeSets : List (String × String)) (now : Int) (st : MgrState)
    (arg : Option String) (responses : List (Option TokenResponse))
    (ti : TokenInfo) (nm : String)
    (hti : st.tokenInfo = some ti) :
    (refreshTokensInternal extractExp extractUser clientId scopeSets now
        st arg responses).result = Except.error (AuthError.refreshFailed nm) →
      (refreshTokensInternal extractExp extractUser clientId scopeSets now
        st arg responses).state = st := by
  obtain ⟨ti0, ui, stk, sv, ss, sou, cc⟩ := st
  simp only at hti
  subst hti
  rw [refreshTokensInternal.eq_def]
  dsimp only
  repeat' split
  all_goals intro hc
  all_goals first
    | rfl
    | simp at hc

/-- C1 witness: the preservation theorem applied to a state holding a live
record, with a two-scope-set cycle failing on its second request. -/
theorem refresh_failure_preserves_record_witness :
    (refreshTokensInternal (fun _ => 0) (fun _ => Except.error ()) "cid"
        [("default", "a"), ("ms", "b")] 0
        { blankState with
          tokenInfo := some
            { refreshToken := "R0", idToken := "", idTokenExpiresAt := 0,
              accessTokens := [] } }
        none
        [some { access_token := "A", refresh_token := "", expires_in := 60, id_token := "" },
         none]).state =
      { blankState with
        tokenInfo := some
          { refreshToken := "R0", idToken := "", idTokenExpiresAt := 0,
            accessTokens := [] } } :=
  refresh_failure_preserves_record (fun _ => 0) (fun _ => Except.error ()) "cid"
    [("default", "a"), ("ms", "b")] 0 _ none
    [some { access_token := "A", refresh_token := "", expires_in := 60, id_token := "" },
     none]
    { refreshToken := "R0", idToken := "", idTokenExpiresAt := 0, accessTokens := [] }
    "ms" rfl (by decide)

/-- C9: a record whose refresh token is empty but whose access tokens are
all present, non-empty and more than the buffer away from expiry makes
`isAuthenticated` report false while `getAccessToken` still succeeds from
the cache, issuing no refresh request and emitting no event. -/
theorem token_served_while_unauthenticated (extractExp : String → Int)
    (extractUser : String → Except Unit UserInfo) (clientId : String)
    (scopeSets : List (String × String)) (now : Int) (name : String)
    (st : MgrState) (responses : List (Option TokenResponse)) (ti : TokenInfo)
    (hti : st.tokenInfo = some ti)
    (hrt : ti.refreshToken = "")
    (hfresh : ∀ p ∈ scopeSets, ∃ e, lookupKey ti.accessTokens p.1 = some e ∧
        e.token ≠ "" ∧ expirationBuffer < e.expiresAt - now)
    (hname : (lookupKey scopeSets name).isSome) :
    isAuthenticated st = false ∧
      ∃ e, lookupKey ti.accessTokens name = some e ∧
        getAccessToken extractExp extractUser clientId scopeSets now name st responses =
          { state := st, requests := [], events := [], result := Except.ok e.token } := by
  have hauth : isAuthenticated st = false := by
    simp [isAuthenticated, hti, hrt]
  have hexp : isTokenExpired scopeSets (some ti) now = false := by
    rw [isTokenExpired.eq_def]
    dsimp only
    rw [List.any_eq_false]
    intro p hp
    obtain ⟨e, he, -, hlt⟩ := hfresh p hp
    rw [he]
    simp only [decide_eq_true_eq]
    exact not_lt.mpr (le_of_lt hlt)
  obtain ⟨scopes, hsc⟩ := Option.isSome_iff_exists.mp hname
  obtain ⟨e, he, het, -⟩ := hfresh (name, scopes) (lookupKey_mem scopeSets name scopes hsc)
  dsimp only at he
  refine ⟨hauth, e, he, ?_⟩
  rw [getAccessToken.eq_def, hti]
  dsimp only
  rw [hsc, hexp]
  simp [tokenAt, he, het]

/-- C9 witness: the theorem applied to a concrete record with an empty
refresh token and one fresh cached token. -/
theorem token_served_while_unauthenticated_witness :
    isAuthenticated cachedOnlyState = false ∧
      ∃ e, lookupKey cachedOnlyRecord.accessTokens "default" = some e ∧
        getAccessToken (fun _ => 0) (fun _ => Except.error ()) "cid" [("default", "a")] 0
            "default" cachedOnlyState [] =
          { state := cachedOnlyState, requests := [], events := [],
            result := Except.ok e.token } :=
  token_served_while_unauthenticated (fun _ => 0) (fun _ => Except.error ()) "cid"
    [("default", "a")] 0 "default" cachedOnlyState [] cachedOnlyRecord
    rfl rfl
    (by
      intro p hp
      simp only [List.mem_singleton] at hp
      subst hp
      exact ⟨⟨"TOK", 10 * expirationBuffer⟩, rfl, by decide, by decide⟩)
    (by decide)

/-- Once the cache is populated, every subsequent `getConfiguration` call
returns the cached configuration with the state (fetch count included)
unchanged. -/
theorem getConfigurationRuns_cached (cfg : OpenIDConfiguration) :
    ∀ (n : Nat) (s : CfgSys), s.cachedConfig = some cfg →
      getConfigurationRuns n s = (s, List.replicate n (GetCfgOutcome.cached cfg)) := by
  intro n
  induction n with
  | zero => intro s h; simp [getConfigurationRuns]
  | succ n ih =>
      intro s h
      have h1 : getConfigurationStart s = (s, GetCfgOutcome.cached cfg) := by
        rw [getConfigurationStart.eq_def, h]
      rw [getConfigurationRuns, h1]
      dsimp only
      rw [ih s h]
      simp [List.replicate]

/-- C10: when `clearCache` runs after a `getConfiguration` call has started
the fetch and before that fetch resolves, the initiator's continuation still
populates the cache with the fetched configuration, and every later
`getConfiguration` call returns it without another network request. -/
theorem clearCache_inflight_fetch (s0 s1 : CfgSys) (cfg : OpenIDConfiguration)
    (n : Nat) (_h : getConfigurationStart s0 = (s1, GetCfgOutcome.started)) :
    (fetchResolve cfg (clearCache s1)).cachedConfig = some cfg ∧
      getConfigurationRuns n (fetchResolve cfg (clearCache s1)) =
        (fetchResolve cfg (clearCache s1), List.replicate n (GetCfgOutcome.cached cfg)) ∧
      (getConfigurationRuns n (fetchResolve cfg (clearCache s1))).1.fetchCount =
        s1.fetchCount := by
  refine ⟨rfl, getConfigurationRuns_cached cfg n _ rfl, ?_⟩
  rw [getConfigurationRuns_cached cfg n _ rfl]
  rfl

/-- C10 witness: the theorem applied to a fresh manager whose first call
starts the fetch, with two calls after the fetch resolves. -/
theorem clearCache_inflight_fetch_witness :
    (fetchResolve ⟨"a", "t", "e", "i"⟩
        (clearCache { cachedConfig := none, configPromise := true, fetchCount := 1 })).cachedConfig =
        some ⟨"a", "t", "e", "i"⟩ ∧
      getConfigurationRuns 2 (fetchResolve ⟨"a", "t", "e", "i"⟩
          (clearCache { cachedConfig := none, configPromise := true, fetchCount := 1 })) =
        (fetchResolve ⟨"a", "t", "e", "i"⟩
          (clearCache { cachedConfig := none, configPromise := true, fetchCount := 1 }),
         List.replicate 2 (GetCfgOutcome.cached ⟨"a", "t", "e", "i"⟩)) ∧
      (getConfigurationRuns 2 (fetchResolve ⟨"a", "t", "e", "i"⟩
          (clearCache { cachedConfig := none, configPromise := true, fetchCount := 1 }))).1.fetchCount =
        ({ cachedConfig := none, configPromise := true, fetchCount := 1 } : CfgSys).fetchCount :=
  clearCache_inflight_fetch { cachedConfig := none, configPromise := false, fetchCount := 0 }
    { cachedConfig := none, configPromise := true, fetchCount := 1 }
    ⟨"a", "t", "e", "i"⟩ 2 (by decide)

/-- Folding the rotation step over a run of responses yields the last
non-empty refresh token received, or the starting token when none was. -/
theorem foldRotate_eq_lastNonEmpty :
    ∀ (rs : List (Option TokenResponse)) (rt : String),
      foldRotate rt rs = (lastNonEmptyRT rs).getD rt := by
  intro rs
  induction rs with
  | nil => intro rt; rfl
  | cons r rest ih =>
      intro rt
      have hstep : foldRotate rt (r :: rest) = foldRotate (rotateRT rt r) rest := rfl
      rw [hstep, ih]
      cases hrest : lastNonEmptyRT rest with
      | some s => simp [lastNonEmptyRT, hrest]
      | none =>
          cases r with
          | none => simp [lastNonEmptyRT, hrest, rotateRT]
          | some d =>
              simp only [lastNonEmptyRT, hrest, rotateRT]
              split <;> simp

/-- Rotation invariant of the refresh loop: every request carries the
refresh token obtained by folding the rotation over the responses consumed
before it, and a successful cycle commits the fold over all consumed
responses. -/
theorem runRefreshCycle_rotation (extractExp : String → Int) (clientId : String)
    (now : Int) :
    ∀ (entries : List (String × String)) (responses : List (Option TokenResponse))
      (rt : String) (acc : TokenInfo),
      (∀ (j : Nat) (hj : j <
            (runRefreshCycle extractExp clientId now entries responses rt acc).1.length),
          ((runRefreshCycle extractExp clientId now entries responses rt acc).1.get
              ⟨j, hj⟩).refresh_token = foldRotate rt (responses.take j)) ∧
      (∀ ti, (runRefreshCycle extractExp clientId now entries responses rt acc).2 =
            Except.ok ti →
          ti.refreshToken = foldRotate rt (responses.take
            (runRefreshCycle extractExp clientId now entries responses rt acc).1.length)) := by
  intro entries
  induction entries with
  | nil =>
      intro responses rt acc
      constructor
      · intro j hj
        simp [runRefreshCycle] at hj
      · intro ti hti
        simp only [runRefreshCycle, Except.ok.injEq] at hti
        subst hti
        rfl
  | cons p rest ih =>
      obtain ⟨name, scopes⟩ := p
      intro responses rt acc
      by_cases hs : isBlankScopes scopes
      · simpa [runRefreshCycle, hs] using ih responses rt acc
      · cases responses with
        | nil =>
            constructor
            · intro j hj
              simp only [runRefreshCycle, hs, if_false, Bool.false_eq_true,
                List.length_singleton] at hj
              have hj0 : j = 0 := Nat.lt_one_iff.mp hj
              subst hj0
              simp [runRefreshCycle, hs, foldRotate]
            · intro ti hti
              simp [runRefreshCycle, hs] at hti
        | cons r rtail =>
            cases r with
            | none =>
                constructor
                · intro j hj
                  simp only [runRefreshCycle, hs, if_false, Bool.false_eq_true,
                    List.length_singleton] at hj
                  have hj0 : j = 0 := Nat.lt_one_iff.mp hj
                  subst hj0
                  simp [runRefreshCycle, hs, foldRotate]
                · intro ti hti
                  simp [runRefreshCycle, hs] at hti
            | some data =>
                have hred : runRefreshCycle extractExp clientId now
                    ((name, scopes) :: rest) (some data :: rtail) rt acc =
                    ({ grant_type := "refresh_token", client_id := clientId,
                        refresh_token := rt, scope := scopes } ::
                      (runRefreshCycle extractExp clientId now rest rtail
                        (rotateRT rt (some data))
                        (refreshAccum extractExp now name data acc)).1,
                      (runRefreshCycle extractExp clientId now rest rtail
                        (rotateRT rt (some data))
                        (refreshAccum extractExp now name data acc)).2) := by
                  simp [runRefreshCycle, hs, rotateRT, refreshAccum]
                rw [hred]
                constructor
                · intro j hj
                  cases j with
                  | zero => rfl
                  | succ j =>
                      simp only [List.length_cons, Nat.succ_lt_succ_iff] at hj
                      have := (ih rtail (rotateRT rt (some data))
                        (refreshAccum extractExp now name data acc)).1 j hj
                      simp only [List.get_cons_succ]
                      rw [this, List.take_succ_cons]
                      rfl
                · intro ti hti
                  have := (ih rtail (rotateRT rt (some data))
                    (refreshAccum extractExp now name data acc)).2 ti hti
                  rw [this, List.length_cons, List.take_succ_cons]
                  rfl

/-- C2: in every refresh cycle, request number `j` is sent with the last
non-empty `refresh_token` received among the `j` responses before it (the
initial token when none was), and a successful cycle commits the last
non-empty `refresh_token` of the whole cycle (the initial token when none
was received). -/
theorem refresh_token_rotation (extractExp : String → Int) (clientId : String)
    (now : Int) (entries : List (String × String))
    (responses : List (Option TokenResponse)) (rt0 : String) (acc0 : TokenInfo)
    (reqs : List RefreshRequest) (out : Except String TokenInfo)
    (h : runRefreshCycle extractExp clientId now entries responses rt0 acc0 = (reqs, out)) :
    (∀ (j : Nat) (hj : j < reqs.length),
        (reqs.get ⟨j, hj⟩).refresh_token = (lastNonEmptyRT (responses.take j)).getD rt0) ∧
      (∀ ti, out = Except.ok ti →
        ti.refreshToken = (lastNonEmptyRT (responses.take reqs.length)).getD rt0) := by
  have hr := runRefreshCycle_rotation extractExp clientId now entries responses rt0 acc0
  rw [h] at hr
  constructor
  · intro j hj
    rw [← foldRotate_eq_lastNonEmpty]
    exact hr.1 j hj
  · intro ti hti
    rw [← foldRotate_eq_lastNonEmpty]
    exact hr.2 ti hti

/-- C2 witness: in a two-scope-set cycle where the first response rotates
the refresh token to `R1` and the second omits one, the rotation theorem
yields that the second request carries `R1` and the committed record holds
`R1`. -/
theorem refresh_token_rotation_witness :
    (([⟨"refresh_token", "cid", "R0", "a"⟩,
        ⟨"refresh_token", "cid", "R1", "b"⟩] : List RefreshRequest).get
        ⟨1, by decide⟩).refresh_token =
      (lastNonEmptyRT (([some ⟨"A", "R1", 60, ""⟩, some ⟨"B", "", 60, ""⟩] :
        List (Option TokenResponse)).take 1)).getD "R0" ∧
    (⟨"R1", "", 0, [("default", ⟨"A", 60000⟩), ("ms", ⟨"B", 60000⟩)]⟩ :
        TokenInfo).refreshToken =
      (lastNonEmptyRT (([some ⟨"A", "R1", 60, ""⟩, some ⟨"B", "", 60, ""⟩] :
        List (Option TokenResponse)).take 2)).getD "R0" :=
  ⟨(refresh_token_rotation (fun _ => 0) "cid" 0 [("default", "a"), ("ms", "b")]
      [some ⟨"A", "R1", 60, ""⟩, some ⟨"B", "", 60, ""⟩] "R0" ⟨"R0", "", 0, []⟩
      [⟨"refresh_token", "cid", "R0", "a"⟩, ⟨"refresh_token", "cid", "R1", "b"⟩]
      (Except.ok ⟨"R1", "", 0, [("default", ⟨"A", 60000⟩), ("ms", ⟨"B", 60000⟩)]⟩)
      rfl).1 1 (by decide),
   (refresh_token_rotation (fun _ => 0) "cid" 0 [("default", "a"), ("ms", "b")]
      [some ⟨"A", "R1", 60, ""⟩, some ⟨"B", "", 60, ""⟩] "R0" ⟨"R0", "", 0, []⟩
      [⟨"refresh_token", "cid", "R0", "a"⟩, ⟨"refresh_token", "cid", "R1", "b"⟩]
      (Except.ok ⟨"R1", "", 0, [("default", ⟨"A", 60000⟩), ("ms", ⟨"B", 60000⟩)]⟩)
      rfl).2
      ⟨"R1", "", 0, [("default", ⟨"A", 60000⟩), ("ms", ⟨"B", 60000⟩)]⟩ rfl⟩

/-- A successful refresh cycle sends exactly one request per configured
scope set with non-blank scopes, in configuration order, each carrying that
set's scope string. -/
theorem runRefreshCycle_covers (extractExp : String → Int) (clientId : String)
    (now : Int) :
    ∀ (entries : List (String × String)) (responses : List (Option TokenResponse))
      (rt : String) (acc : TokenInfo) (ti : TokenInfo),
      (runRefreshCycle extractExp clientId now entries responses rt acc).2 =
          Except.ok ti →
        (runRefreshCycle extractExp clientId now entries responses rt acc).1.map
            (fun q => q.scope) =
          (entries.filter (fun p => !(isBlankScopes p.2))).map (fun p => p.2) := by
  intro entries
  induction entries with
  | nil => intro responses rt acc ti _; rfl
  | cons p rest ih =>
      obtain ⟨name, scopes⟩ := p
      intro responses rt acc ti hok
      by_cases hs : isBlankScopes scopes
      · rw [List.filter_cons_of_neg (by simp [hs])]
        simp only [runRefreshCycle, hs, if_true] at hok ⊢
        exact ih responses rt acc ti hok
      · rw [List.filter_cons_of_pos (by simp [hs])]
        cases responses with
        | nil => simp [runRefreshCycle, hs] at hok
        | cons r rtail =>
            cases r with
            | none => simp [runRefreshCycle, hs] at hok
            | some data =>
                simp only [runRefreshCycle, hs, if_false, Bool.false_eq_true,
                  List.map_cons] at hok ⊢
                rw [ih rtail (if data.refresh_token ≠ "" then data.refresh_token else rt)
                  (refreshAccum extractExp now name data acc) ti hok]

/-- With an existing record holding a non-empty refresh token and no token
argument, `refreshTokensInternal` issues exactly the requests of the refresh
cycle started from that record. -/
theorem refreshTokensInternal_requests (extractExp : String → Int)
    (extractUser : String → Except Unit UserInfo) (clientId : String)
    (scopeSets : List (String × String)) (now : Int) (st : MgrState)
    (responses : List (Option TokenResponse)) (ti : TokenInfo)
    (hti : st.tokenInfo = some ti) (hrt : ti.refreshToken ≠ "") :
    (refreshTokensInternal extractExp extractUser clientId scopeSets now
        st none responses).requests =
      (runRefreshCycle extractExp clientId now scopeSets responses
        ti.refreshToken ti).1 := by
  rw [refreshTokensInternal.eq_def, hti]
  dsimp only
  rw [if_neg hrt]
  repeat' split
  all_goals rfl

/-- C4: the `getAccessToken` contract.  With no record the call fails
not-authenticated; with a record but an unconfigured scope-set name it fails
unknown-scope-set; when some configured set's token is missing or within the
5-minute buffer of expiry (and a refresh token is held) the call issues
exactly the requests of a full refresh cycle over all (non-blank) scope
sets before returning; when no set is stale it touches nothing and issues no
request; and it fails missing-token exactly when the record exists, the name
is configured, any needed refresh succeeded, and the requested set still has
no token afterwards. -/
theorem getAccessToken_contract (extractExp : String → Int)
    (extractUser : String → Except Unit UserInfo) (clientId : String)
    (scopeSets : List (String × String)) (now : Int) (name : String)
    (st : MgrState) (responses : List (Option TokenResponse)) (R : CallResult String)
    (hR : getAccessToken extractExp extractUser clientId scopeSets now name st
        responses = R) :
    (st.tokenInfo = none →
      R = { state := st, requests := [], events := [],
            result := Except.error AuthError.notAuthenticated }) ∧
    (st.tokenInfo ≠ none → lookupKey scopeSets name = none →
      R = { state := st, requests := [], events := [],
            result := Except.error (AuthError.unknownScopeSet name) }) ∧
    (∀ ti, st.tokenInfo = some ti → (lookupKey scopeSets name).isSome = true →
      isTokenExpired scopeSets st.tokenInfo now = true → ti.refreshToken ≠ "" →
      R.requests = (runRefreshCycle extractExp clientId now scopeSets responses
          ti.refreshToken ti).1 ∧
        (∀ ti2, (runRefreshCycle extractExp clientId now scopeSets responses
            ti.refreshToken ti).2 = Except.ok ti2 →
          R.requests.map (fun q => q.scope) =
            (scopeSets.filter (fun p => !(isBlankScopes p.2))).map (fun p => p.2))) ∧
    (st.tokenInfo ≠ none → (lookupKey scopeSets name).isSome = true →
      isTokenExpired scopeSets st.tokenInfo now = false →
      R = { state := st, requests := [], events := [],
            result := match tokenAt st.tokenInfo name with
              | none => Except.error (AuthError.missingToken name)
              | some tok => Except.ok tok }) ∧
    (R.result = Except.error (AuthError.missingToken name) ↔
      st.tokenInfo ≠ none ∧ (lookupKey scopeSets name).isSome = true ∧
        tokenAt R.state.tokenInfo name = none ∧
        (isTokenExpired scopeSets st.tokenInfo now = true →
          (refreshTokensInternal extractExp extractUser clientId scopeSets now
            st none responses).result = Except.ok ())) := by
  subst hR
  refine ⟨?_, ?_, ?_, ?_, ?_⟩
  · intro h
    rw [getAccessToken.eq_def, h]
  · intro h hlk
    cases hti : st.tokenInfo with
    | none => exact absurd hti h
    | some ti =>
        rw [getAccessToken.eq_def, hti]
        dsimp only
        simp [hlk]
  · intro ti hti hlk hexp hrt
    rw [hti] at hexp
    obtain ⟨sc, hsc⟩ := Option.isSome_iff_exists.mp hlk
    rw [getAccessToken.eq_def, hti]
    dsimp only
    simp only [hsc, Option.isNone_some, Bool.false_eq_true, if_false, hexp, if_true]
    constructor
    · split
      · exact refreshTokensInternal_requests extractExp extractUser clientId scopeSets
          now st responses ti hti hrt
      · exact refreshTokensInternal_requests extractExp extractUser clientId scopeSets
          now st responses ti hti hrt
    · intro ti2 hok2
      have hcov := runRefreshCycle_covers extractExp clientId now scopeSets responses
        ti.refreshToken ti ti2 hok2
      split
      · rw [refreshTokensInternal_requests extractExp extractUser clientId scopeSets
          now st responses ti hti hrt]
        exact hcov
      · rw [refreshTokensInternal_requests extractExp extractUser clientId scopeSets
          now st responses ti hti hrt]
        exact hcov
  · intro h hlk hexpf
    cases hti : st.tokenInfo with
    | none => exact absurd hti h
    | some ti =>
        rw [hti] at hexpf
        obtain ⟨sc, hsc⟩ := Option.isSome_iff_exists.mp hlk
        rw [getAccessToken.eq_def, hti]
        dsimp only
        simp only [hsc, Option.isNone_some, Bool.false_eq_true, if_false, hexpf]
  · rw [getAccessToken.eq_def]
    split
    · next heqti =>
        simp [heqti]
    · next ti heqti =>
        rw [heqti]
        by_cases hlk2 : (lookupKey scopeSets name).isNone
        · rw [if_pos hlk2]
          have hnone : lookupKey scopeSets name = none :=
            Option.isNone_iff_eq_none.mp hlk2
          simp [hnone]
        · rw [if_neg hlk2]
          have hsome : (lookupKey scopeSets name).isSome = true := by
            rcases hx : lookupKey scopeSets name with - | v
            · rw [hx] at hlk2; simp at hlk2
            · rfl
          split
          · next hexp =>
              dsimp only
              have hshape := refreshTokensInternal_error_shape extractExp extractUser
                clientId scopeSets now st none responses
              split
              · next e heq =>
                  constructor
                  · intro hc
                    rcases hshape with hs | hs | ⟨nm, hs⟩ | hs <;>
                      rw [heq] at hs <;> simp at hs <;> subst hs <;> simp at hc
                  · rintro ⟨-, -, -, himp⟩
                    have hok := himp hexp
                    rw [heq] at hok
                    simp at hok
              · next val heq =>
                  cases htok : tokenAt (refreshTokensInternal extractExp extractUser
                      clientId scopeSets now st none responses).state.tokenInfo name with
                  | none =>
                      simp only [htok]
                      constructor
                      · intro _
                        exact ⟨by simp, hsome, trivial, fun _ => heq⟩
                      · intro _
                        trivial
                  | some tok =>
                      simp only [htok]
                      constructor
                      · intro hc
                        simp at hc
                      · rintro ⟨-, -, hcon, -⟩
                        simp at hcon
          · next hexpn =>
              dsimp only
              rw [heqti]
              have hexpf : isTokenExpired scopeSets (some ti) now = false := by
                simpa using hexpn
              cases htok : tokenAt (some ti) name with
              | none =>
                  simp only [htok]
                  constructor
                  · intro _
                    refine ⟨by simp, hsome, trivial, fun hcon => ?_⟩
                    rw [hexpf] at hcon
                    simp at hcon
                  · intro _
                    trivial
              | some tok =>
                  simp only [htok]
                  constructor
                  · intro hc
                    simp at hc
                  · rintro ⟨-, -, hcon, -⟩
                    simp at hcon

/-- C4 witness: the contract theorem applied to a stale single-scope-set
state; the call's requests are exactly the refresh cycle's, covering the one
configured scope set. -/
theorem getAccessToken_contract_witness :
    refreshedResult.requests =
      (runRefreshCycle (fun _ => 0) "cid" 0 [("default", "a")]
        [some ⟨"A", "R1", 60, ""⟩] "R0" ⟨"R0", "", 0, []⟩).1 ∧
      refreshedResult.requests.map (fun q => q.scope) =
        (([("default", "a")] : List (String × String)).filter
          (fun p => !(isBlankScopes p.2))).map (fun p => p.2) :=
  have h := getAccessToken_contract (fun _ => 0) (fun _ => Except.error ()) "cid"
    [("default", "a")] 0 "default" staleState [some ⟨"A", "R1", 60, ""⟩]
    refreshedResult (by decide)
  have h3 := h.2.2.1 ⟨"R0", "", 0, []⟩ rfl rfl (by decide) (by decide)
  ⟨h3.1, h3.2 refreshedRecord rfl⟩

/-- Preservation: every scheduler step keeps the two-caller single-flight
invariant, given that the initial record is stale, the committed record is
fresh, and both callers request configured scope-set names. -/
theorem concInv_step (P : ConcParams) (ti0 : TokenInfo)
    (hexp : isTokenExpired P.scopeSets (some ti0) P.now = true)
    (hfresh : isTokenExpired P.scopeSets (some (P.commits 0)) P.now = false)
    (hnA : (lookupKey P.scopeSets P.nameA).isSome = true)
    (hnB : (lookupKey P.scopeSets P.nameB).isSome = true)
    (s : Conc2) (t : Task) (hI : ConcInv P ti0 s) :
    ConcInv P ti0 (stepTask P s t) := by
  obtain ⟨vA, hvA⟩ := Option.isSome_iff_exists.mp hnA
  obtain ⟨vB, hvB⟩ := Option.isSome_iff_exists.mp hnB
  obtain ⟨⟨tk, rp, stn, wk, cp⟩, a, b⟩ := s
  rcases hI with ⟨h0, hsys, ha, hb⟩ | ⟨h1, hA, hB, hsub⟩
  · -- no cycle started yet: everything initial
    simp only [initConc, ConcSys.mk.injEq] at hsys
    obtain ⟨e1, e2, e3, e4, e5⟩ := hsys
    simp only at ha hb h0
    subst e1; subst e2; subst e3; subst e4; subst e5; subst ha; subst hb
    cases t with
    | ca =>
        simp only [stepTask, callerStep, hvA, Option.isNone_some, Bool.false_eq_true,
          if_false, hexp, if_true]
        right
        exact ⟨rfl, Or.inr (Or.inl ⟨true, rfl⟩), Or.inl rfl,
          Or.inl ⟨⟨P.steps, rfl⟩, rfl, rfl, rfl⟩⟩
    | cb =>
        simp only [stepTask, callerStep, hvB, Option.isNone_some, Bool.false_eq_true,
          if_false, hexp, if_true]
        right
        exact ⟨rfl, Or.inl rfl, Or.inr (Or.inl ⟨true, rfl⟩),
          Or.inl ⟨⟨P.steps, rfl⟩, rfl, rfl, rfl⟩⟩
    | w cid =>
        simp only [stepTask, workerStep, lookupKey]
        left
        exact ⟨rfl, rfl, rfl, rfl⟩
  · -- exactly cycle 0 started
    simp only at h1
    subst h1
    rcases hsub with ⟨⟨k, hwk⟩, hcp, htk, hrp⟩ | ⟨hwk, hcp, htk⟩
    · -- cycle 0 in flight
      simp only at hwk hcp htk hrp
      subst hwk; subst hcp; subst htk; subst hrp
      cases t with
      | ca =>
          rcases hA with ha | ⟨ow, ha⟩ | ⟨ha, hcp'⟩

          · simp only at ha
            subst ha
            simp only [stepTask, callerStep, hvA, Option.isNone_some, Bool.false_eq_true,
              if_false, hexp, if_true]
            right
            exact ⟨rfl, Or.inr (Or.inl ⟨false, rfl⟩), hB,
              Or.inl ⟨⟨k, rfl⟩, rfl, rfl, rfl⟩⟩
          · simp only at ha
            subst ha
            simp only [stepTask, callerStep, List.not_mem_nil, if_false]
            right
            exact ⟨rfl, Or.inr (Or.inl ⟨ow, rfl⟩), hB,
              Or.inl ⟨⟨k, rfl⟩, rfl, rfl, rfl⟩⟩
          · simp at hcp'
      | cb =>
          rcases hB with hb | ⟨ow, hb⟩ | ⟨hb, hcp'⟩
          · simp only at hb
            subst hb
            simp only [stepTask, callerStep, hvB, Option.isNone_some, Bool.false_eq_true,
              if_false, hexp, if_true]
            right
            exact ⟨rfl, hA, Or.inr (Or.inl ⟨false, rfl⟩),
              Or.inl ⟨⟨k, rfl⟩, rfl, rfl, rfl⟩⟩
          · simp only at hb
            subst hb
            simp only [stepTask, callerStep, List.not_mem_nil, if_false]
            right
            exact ⟨rfl, hA, Or.inr (Or.inl ⟨ow, rfl⟩),
              Or.inl ⟨⟨k, rfl⟩, rfl, rfl, rfl⟩⟩
          · simp at hcp'
      | w cid =>
          simp only [stepTask]
          by_cases hc : (0 : Nat) = cid
          · subst hc
            by_cases hk : k = 0
            · subst hk
              have hw : workerStep P 0 ⟨some ti0, some 0, 1, [(0, 0)], []⟩ =
                  ⟨some (P.commits 0), some 0, 1, [], [0]⟩ := by
                simp [workerStep, lookupKey]
              rw [hw]
              right
              refine ⟨rfl, ?_, ?_, Or.inr ⟨rfl, rfl, rfl⟩⟩
              · rcases hA with ha | ⟨ow, ha⟩ | ⟨ha, hcp'⟩
                · exact Or.inl ha
                · exact Or.inr (Or.inl ⟨ow, ha⟩)
                · simp at hcp'
              · rcases hB with hb | ⟨ow, hb⟩ | ⟨hb, hcp'⟩
                · exact Or.inl hb
                · exact Or.inr (Or.inl ⟨ow, hb⟩)
                · simp at hcp'
            · have hw : workerStep P 0 ⟨some ti0, some 0, 1, [(0, k)], []⟩ =
                  ⟨some ti0, some 0, 1, [(0, k - 1)], []⟩ := by
                simp [workerStep, lookupKey, setKey, hk]
              rw [hw]
              right
              refine ⟨rfl, ?_, ?_, Or.inl ⟨⟨k - 1, rfl⟩, rfl, rfl, rfl⟩⟩
              · rcases hA with ha | ⟨ow, ha⟩ | ⟨ha, hcp'⟩
                · exact Or.inl ha
                · exact Or.inr (Or.inl ⟨ow, ha⟩)
                · simp at hcp'
              · rcases hB with hb | ⟨ow, hb⟩ | ⟨hb, hcp'⟩
                · exact Or.inl hb
                · exact Or.inr (Or.inl ⟨ow, hb⟩)
                · simp at hcp'
          · have hw : workerStep P cid ⟨some ti0, some 0, 1, [(0, k)], []⟩ =
                ⟨some ti0, some 0, 1, [(0, k)], []⟩ := by
              simp [workerStep, lookupKey, hc]
            rw [hw]
            right
            exact ⟨rfl, hA, hB, Or.inl ⟨⟨k, rfl⟩, rfl, rfl, rfl⟩⟩
    · -- cycle 0 committed
      simp only at hwk hcp htk
      subst hwk; subst hcp; subst htk
      cases t with
      | ca =>
          rcases hA with ha | ⟨ow, ha⟩ | ⟨ha, hcp'⟩
          · simp only at ha
            subst ha
            simp only [stepTask, callerStep, hvA, Option.isNone_some, Bool.false_eq_true,
              if_false, hfresh]
            right
            exact ⟨rfl, Or.inr (Or.inr ⟨rfl, rfl⟩), hB, Or.inr ⟨rfl, rfl, rfl⟩⟩
          · simp only at ha
            subst ha
            simp only [stepTask, callerStep, List.mem_singleton, if_pos rfl]
            cases ow with
            | true =>
                right
                exact ⟨rfl, Or.inr (Or.inr ⟨rfl, rfl⟩), hB, Or.inr ⟨rfl, rfl, rfl⟩⟩
            | false =>
                right
                exact ⟨rfl, Or.inr (Or.inr ⟨rfl, rfl⟩), hB, Or.inr ⟨rfl, rfl, rfl⟩⟩
          · simp only at ha
            subst ha
            simp only [stepTask, callerStep]
            right
            exact ⟨rfl, Or.inr (Or.inr ⟨rfl, rfl⟩), hB, Or.inr ⟨rfl, rfl, rfl⟩⟩
      | cb =>
          rcases hB with hb | ⟨ow, hb⟩ | ⟨hb, hcp'⟩
          · simp only at hb
            subst hb
            simp only [stepTask, callerStep, hvB, Option.isNone_some, Bool.false_eq_true,
              if_false, hfresh]
            right
            exact ⟨rfl, hA, Or.inr (Or.inr ⟨rfl, rfl⟩), Or.inr ⟨rfl, rfl, rfl⟩⟩
          · simp only at hb
            subst hb
            simp only [stepTask, callerStep, List.mem_singleton, if_pos rfl]
            cases ow with
            | true =>
                right
                exact ⟨rfl, hA, Or.inr (Or.inr ⟨rfl, rfl⟩), Or.inr ⟨rfl, rfl, rfl⟩⟩
            | false =>
                right
                exact ⟨rfl, hA, Or.inr (Or.inr ⟨rfl, rfl⟩), Or.inr ⟨rfl, rfl, rfl⟩⟩
          · simp only at hb
            subst hb
            simp only [stepTask, callerStep]
            right
            exact ⟨rfl, hA, Or.inr (Or.inr ⟨rfl, rfl⟩), Or.inr ⟨rfl, rfl, rfl⟩⟩
      | w cid =>
          simp only [stepTask, workerStep, lookupKey]
          right
          exact ⟨rfl, hA, hB, Or.inr ⟨rfl, rfl, rfl⟩⟩

/-- The single-flight invariant holds along every schedule. -/
theorem concInv_run (P : ConcParams) (ti0 : TokenInfo)
    (hexp : isTokenExpired P.scopeSets (some ti0) P.now = true)
    (hfresh : isTokenExpired P.scopeSets (some (P.commits 0)) P.now = false)
    (hnA : (lookupKey P.scopeSets P.nameA).isSome = true)
    (hnB : (lookupKey P.scopeSets P.nameB).isSome = true) :
    ∀ (sched : List Task) (s : Conc2), ConcInv P ti0 s →
      ConcInv P ti0 (runSched P s sched) := by
  intro sched
  induction sched with
  | nil => intro s h; exact h
  | cons t rest ih =>
      intro s h
      exact ih (stepTask P s t) (concInv_step P ti0 hexp hfresh hnA hnB s t h)

/-- C3: two concurrent `getAccessToken` callers over a stale record share a
single refresh cycle under every schedule: at most one cycle is ever
started, and whenever both callers have finished, exactly one cycle ran and
both callers' results are the token read from that one cycle's committed
record. -/
theorem single_flight_refresh (P : ConcParams) (ti0 : TokenInfo)
    (hexp : isTokenExpired P.scopeSets (some ti0) P.now = true)
    (hfresh : isTokenExpired P.scopeSets (some (P.commits 0)) P.now = false)
    (hnA : (lookupKey P.scopeSets P.nameA).isSome = true)
    (hnB : (lookupKey P.scopeSets P.nameB).isSome = true)
    (sched : List Task) :
    (runSched P (initConc ti0) sched).sys.started ≤ 1 ∧
      (∀ ra rb, (runSched P (initConc ti0) sched).a = CallerPC.done ra →
        (runSched P (initConc ti0) sched).b = CallerPC.done rb →
        (runSched P (initConc ti0) sched).sys.started = 1 ∧
          ra = readToken (some (P.commits 0)) P.nameA ∧
          rb = readToken (some (P.commits 0)) P.nameB) := by
  have hinv := concInv_run P ti0 hexp hfresh hnA hnB sched (initConc ti0)
    (Or.inl ⟨rfl, rfl, rfl, rfl⟩)
  rcases hinv with ⟨h0, hsys, ha, hb⟩ | ⟨h1, hA, hB, hsub⟩
  · constructor
    · rw [h0]
      exact Nat.zero_le 1
    · intro ra rb hra hrb
      rw [ha] at hra
      simp at hra
  · refine ⟨le_of_eq h1, ?_⟩
    intro ra rb hra hrb
    refine ⟨h1, ?_, ?_⟩
    · rcases hA with h | ⟨ow, h⟩ | ⟨h, -⟩
      · rw [hra] at h; simp at h
      · rw [hra] at h; simp at h
      · rw [hra] at h
        simpa using h
    · rcases hB with h | ⟨ow, h⟩ | ⟨h, -⟩
      · rw [hrb] at h; simp at h
      · rw [hrb] at h; simp at h
      · rw [hrb] at h
        simpa using h

/-- C3 witness: the single-flight theorem applied to the concrete scenario
and one complete interleaving; exactly one cycle ran and both callers read
token `A` from its committed record. -/
theorem single_flight_refresh_witness :
    (runSched singleFlightParams (initConc singleFlightInitRecord)
        singleFlightSched).sys.started = 1 ∧
      Except.ok "A" = readToken (some (singleFlightParams.commits 0))
        singleFlightParams.nameA ∧
      Except.ok "A" = readToken (some (singleFlightParams.commits 0))
        singleFlightParams.nameB :=
  (single_flight_refresh singleFlightParams singleFlightInitRecord
      (by decide) (by decide) (by decide) (by decide) singleFlightSched).2
    (Except.ok "A") (Except.ok "A") (by decide) (by decide)

end MsOAuth
